import Mathlib

/-!
Shallow embedding of the mongo-chroma-vector-API repository: the
synchronization worker (`worker/mongo_stream_worker.py`) and the batch
ingestion endpoint (`backend/app.py`), together with theorems checking the
specification's claims about them.

Modelling conventions:
* MongoDB ObjectIds are modelled as natural numbers together with their
  canonical 24-character lowercase hexadecimal string form (`oidString`);
  the `$gt` order on ObjectIds is the order on the numbers.
* Python dictionaries read by `doc.get(key, default)` become records with
  `Option` fields and `Option.getD`.
* The HTTP layer is abstracted by boolean oracles: an attempt oracle says
  whether a given POST attempt is acknowledged with a success status.
* Exceptions become `Except`/`Option` results; functions are total, which
  reflects that the Python code catches the relevant exceptions.
-/

namespace MongoChroma

/-- A MongoDB document as the worker reads it: the `_id` key plus the
optional fields that `_to_payload` looks up with `doc.get(..., default)`. -/
structure MongoDoc where
  id : Nat
  title : Option String := none
  body : Option String := none
  tags : Option (List String) := none
  deriving DecidableEq

/-- The ingestion payload built by `_to_payload`:
`\x7bmongo_id, title, body, tags\x7d`. -/
structure IngestionPayload where
  mongo_id : String
  title : String
  body : String
  tags : List String
  deriving DecidableEq

/-- Canonical string form of an ObjectId modelled as a natural number:
24 lowercase hexadecimal characters (`str(ObjectId)` in the source). -/
def oidString (n : Nat) : String :=
  let ds := Nat.toDigits 16 (n % 16 ^ 24)
  String.mk (List.replicate (24 - ds.length) '0' ++ ds)

/-- `_to_payload` (worker lines 124-130): projects a document to the
ingestion payload, defaulting missing `title`/`body` to `""` and missing
`tags` to `[]`. -/
def _to_payload (doc : MongoDoc) : IngestionPayload :=
  { mongo_id := oidString doc.id
    title := doc.title.getD ""
    body := doc.body.getD ""
    tags := doc.tags.getD [] }

/-- Recursion core of the batch splitting, with explicit fuel so that the
recursion is structural (the fuel is instantiated with the list length,
which always suffices). -/
def splitBatchesAux (B : Nat) : Nat → List α → List (List α)
  | _, [] => []
  | 0, _ :: _ => []
  | fuel + 1, x :: xs =>
    (x :: List.take (B - 1) xs) :: splitBatchesAux B fuel (List.drop (B - 1) xs)

/-- The batch splitting of `run_polling_worker` (lines 163-164):
`for i in range(0, len(docs), B): batch = docs[i : i + B]`.
For `B ≥ 1` each step takes the next `B` elements
(`(x :: xs).take B = x :: xs.take (B - 1)`) and recurses on the rest. -/
def splitBatches (B : Nat) (l : List α) : List (List α) :=
  splitBatchesAux B l.length l

/-- The delay slept after a failed attempt:
`WORKER_BACKOFF_BASE_SEC * (2**attempt) * (1 + random.random())`, computed
identically in `_post_with_retry` (line 54) and `_post_batch_with_retry`
(line 79).  `attempt` is the 0-based loop index; the 1-based attempt number
reported in logs and used by the spec is `attempt + 1`.  Arithmetic is over
`ℚ` (exact arithmetic in place of Python floats). -/
def backoffDelay (base : ℚ) (attempt : Nat) (jitter : ℚ) : ℚ :=
  base * 2 ^ attempt * (1 + jitter)

/-- The retry loop shared by `_post_with_retry` and `_post_batch_with_retry`:
`for attempt in range(maxRetries): try: post; return True except: backoff`,
then `return False`.  `attemptOk a` abstracts whether the POST at 0-based
attempt index `a` is acknowledged with a success status (any exception or
non-2xx status counts as failure). -/
def retryLoop (attemptOk : Nat → Bool) : Nat → Nat → Bool
  | _, 0 => false
  | a, n + 1 => if attemptOk a then true else retryLoop attemptOk (a + 1) n

/-- `_post_batch_with_retry` (lines 67-90): true iff some attempt among
`WORKER_MAX_RETRIES` tries succeeds; false once all attempts are exhausted. -/
def _post_batch_with_retry (maxRetries : Nat) (attemptOk : Nat → Bool) : Bool :=
  retryLoop attemptOk 0 maxRetries

/-- Whether a character is one of the hexadecimal digits accepted by the
`ObjectId` constructor. -/
def isHexDigitChar (c : Char) : Bool :=
  c.isDigit || (('a' ≤ c) && (c ≤ 'f')) || (('A' ≤ c) && (c ≤ 'F'))

/-- Whether `ObjectId(s)` succeeds: a 24-character hexadecimal string.
On any other input the constructor raises `InvalidId`. -/
def isValidOidString (s : String) : Bool :=
  s.length == 24 && s.toList.all isHexDigitChar

def hexDigitVal (c : Char) : Nat :=
  if c.isDigit then c.toNat - '0'.toNat
  else if ('a' ≤ c) && (c ≤ 'f') then c.toNat - 'a'.toNat + 10
  else c.toNat - 'A'.toNat + 10

/-- `ObjectId(s)` as a partial parse: `some` of the numeric value of the
24 hex digits, `none` when the constructor would raise. -/
def parseObjectId (s : String) : Option Nat :=
  if isValidOidString s then
    some (s.toList.foldl (fun a c => a * 16 + hexDigitVal c) 0)
  else none

/-- Python's `str.strip()`: drop leading and trailing whitespace. -/
def pyStrip (s : String) : String :=
  String.mk
    (((s.toList.dropWhile Char.isWhitespace).reverse.dropWhile Char.isWhitespace).reverse)

/-- `_load_checkpoint` (lines 93-101).  The durable file is modelled by
`Option String`: `none` when `path.exists()` is false, `some content`
otherwise.  The body mirrors `val = read_text().strip();
return ObjectId(val) if val else None`, with the surrounding
`try/except: return None` catching the parse failure — so the function is
total and never propagates an exception. -/
def _load_checkpoint (file : Option String) : Option Nat :=
  match file with
  | none => none
  | some content =>
    let val := pyStrip content
    if val = "" then none else parseObjectId val

/-- `_save_checkpoint` (lines 104-106): the complete contents written to the
checkpoint file by `path.write_text(str(obj_id))` — the whole record is
overwritten with the canonical string form of the id. -/
def _save_checkpoint_contents (obj_id : Nat) : String :=
  oidString obj_id

/-- Crash semantics of the plain in-place `path.write_text(s)` used by
`_save_checkpoint`: the file is truncated and the bytes of `s` are written
in order, so if the process crashes mid-write the on-disk contents can be
any prefix of `s`. -/
def writeTextCrashStates (s : String) : List String :=
  (List.range (s.length + 1)).map (fun k => String.mk (s.toList.take k))

/-- Modelled from the spec: the write-to-temp-then-rename save that §4.4
requires (the repository has no such routine).  At every crash point the
durable file holds either the previous contents or the complete new
contents, never anything else. -/
def atomicSaveCrashStates (old new : String) : List String :=
  [old, new]

/-! ## Polling worker loop

`run_polling_worker` (lines 133-177), modelled as a state machine.  The
Mongo query of line 150 (`$gt` the checkpoint when one is set, sorted
ascending by `_id`) is modelled as a filter over the collection contents,
which are taken to be listed in ascending `_id` order (ids are unique, and
`sort("_id", 1)` returns ascending order regardless of storage order).  The
HTTP outcome of posting a sub-batch is abstracted by an attempt oracle fed
to `_post_batch_with_retry`. -/

/-- The find query predicate of line 150: all documents when no checkpoint,
else documents with `_id` strictly greater than it. -/
def matchesQuery (c : Option Nat) (d : MongoDoc) : Bool :=
  match c with
  | none => true
  | some v => decide (v < d.id)

/-- One polling fetch (lines 150-152). -/
def fetch (coll : List MongoDoc) (c : Option Nat) : List MongoDoc :=
  coll.filter (matchesQuery c)

/-- `batch[-1]["_id"]`: the id of the last document of a sub-batch
(0 as a dummy for the empty list, which never occurs). -/
def lastId (b : List MongoDoc) : Nat :=
  match b.getLast? with
  | some d => d.id
  | none => 0

/-- Observable state of the polling worker: the in-memory `last_seen_id`,
the trace of `_save_checkpoint` writes (oldest first), the trace of
sub-batches whose dispatch was confirmed successful, the trace of
sub-batches that exhausted all attempts (each also produces an
`ingest_batch_failed` log line), and the two partitions of the
`WORKER_PROCESSED` counter. -/
structure WorkerState where
  lastSeenId : Option Nat
  saved : List Nat
  succBatches : List (List MongoDoc)
  failedBatches : List (List MongoDoc)
  successCount : Nat
  errorCount : Nat
  deriving DecidableEq

def initState (c0 : Option Nat) : WorkerState :=
  { lastSeenId := c0, saved := [], succBatches := [], failedBatches := []
    successCount := 0, errorCount := 0 }

/-- The inner loop of lines 163-175 over the sub-batches of one fetched
run.  `ok j` is the result of `_post_batch_with_retry` for the `j`-th
sub-batch.  On success the checkpoint advances to the last id of the batch
and is saved; on failure only the error counter and failure log grow, and —
as in the source, which has no `break` — the loop continues with the next
sub-batch of the same run. -/
def dispatchBatches (ok : Nat → Bool) : Nat → List (List MongoDoc) → WorkerState → WorkerState
  | _, [], st => st
  | j, b :: rest, st =>
    if ok j then
      dispatchBatches ok (j + 1) rest
        { st with
          lastSeenId := some (lastId b)
          saved := st.saved ++ [lastId b]
          succBatches := st.succBatches ++ [b]
          successCount := st.successCount + b.length }
    else
      dispatchBatches ok (j + 1) rest
        { st with
          failedBatches := st.failedBatches ++ [b]
          errorCount := st.errorCount + b.length }

/-- One polling cycle (one iteration of the `while True` of line 149):
fetch everything past the checkpoint, split into sub-batches of at most
`B = WORKER_BATCH_SIZE`, dispatch each in order.  (The `if docs:` guard of
line 162 is redundant over an empty batch list.) -/
def runCycle (B : Nat) (ok : Nat → Bool) (coll : List MongoDoc) (st : WorkerState) : WorkerState :=
  dispatchBatches ok 0 (splitBatches B (fetch coll st.lastSeenId)) st

/-- `run_polling_worker` after `t` polling cycles, starting from the loaded
checkpoint `c0`.  `coll t` is the collection contents during cycle `t`;
`attempts t j a` says whether the `a`-th POST attempt for the `j`-th
sub-batch of cycle `t` succeeds. -/
def run_polling_worker (B maxRetries : Nat) (attempts : Nat → Nat → Nat → Bool)
    (coll : Nat → List MongoDoc) (c0 : Option Nat) : Nat → WorkerState
  | 0 => initState c0
  | t + 1 =>
    let st := run_polling_worker B maxRetries attempts coll c0 t
    runCycle B (fun j => _post_batch_with_retry maxRetries (attempts t j)) (coll t) st

/-- Collections are listed in strictly ascending `_id` order. -/
def idSorted (l : List MongoDoc) : Prop :=
  l.Pairwise (fun a b => a.id < b.id)

/-- The full history of checkpoint values: the initially loaded value (if
any) followed by every value written by `_save_checkpoint`, oldest first. -/
def chkTrace (c0 : Option Nat) (st : WorkerState) : List Nat :=
  c0.toList ++ st.saved

/-- The checkpoint invariant: the history of checkpoint values is strictly
increasing, every saved value is the last id of the corresponding confirmed
sub-batch (in order), and the in-memory checkpoint is the most recent value
of the history. -/
def ChkInv (c0 : Option Nat) (st : WorkerState) : Prop :=
  List.Chain' (· < ·) (chkTrace c0 st) ∧
  st.saved = st.succBatches.map lastId ∧
  st.lastSeenId = (chkTrace c0 st).getLast?

/-! ## Ingestion API: the batch endpoint

`POST /ingest-batch` (`backend/app.py` lines 294-314) together with its
helpers `validate_payload_size` (lines 166-172),
`build_text_from_payload` (lines 161-163) and
`upsert_documents` (`backend/vector_store.py`).  The HTTP exception raised
by validation is modelled with `Except`; Python state changes made before a
raise persist, so the endpoint returns the (possibly updated) store next to
the `Except` outcome. -/

/-- One item of the batch request body. -/
structure IngestItem where
  mongo_id : String
  title : String
  body : String
  tags : Option (List String) := none
  deriving DecidableEq

/-- Modelled from the spec: `BatchIngestPayload` is imported by
`backend/app.py` but its declaration is missing from the sources;
§6 of the spec gives the batch request body as
`items`, a list of records with `mongo_id`, `title`, `body` and
optional `tags`. -/
structure BatchIngestPayload where
  items : List IngestItem
  deriving DecidableEq

structure HttpError where
  status_code : Nat
  detail : String
  deriving DecidableEq

/-- `validate_payload_size` (lines 166-172): raises HTTP 413 when
`len(title) + len(body)` exceeds `MAX_DOC_CHARS`. -/
def validate_payload_size (maxDocChars : Nat) (title body : String) :
    Except HttpError Unit :=
  let total_len := title.length + body.length
  if total_len > maxDocChars then
    Except.error
      { status_code := 413
        detail := "Document too large (" ++ toString total_len ++
          " chars). Max allowed: " ++ toString maxDocChars }
  else Except.ok ()

/-- `build_text_from_payload` (lines 161-163):
`f"Title: ...\nBody: ...\nTags: ...".strip()` where the tags string is
`", ".join(tags)` when `tags` is truthy (neither `None` nor empty). -/
def build_text_from_payload (p : IngestItem) : String :=
  let tags_str :=
    match p.tags with
    | none => ""
    | some [] => ""
    | some ts => String.intercalate ", " ts
  ("Title: " ++ p.title ++ "\nBody: " ++ p.body ++ "\nTags: " ++ tags_str).trim

/-- The metadata dictionary built per item (lines 307-311); Chroma metadata
must be scalar, so the tag list becomes a joined string, omitted when the
list is falsy. -/
structure ChromaMeta where
  source : String
  title : String
  tags : Option String
  deriving DecidableEq

def buildMeta (item : IngestItem) : ChromaMeta :=
  let tags_value : Option String :=
    match item.tags with
    | none => none
    | some [] => none
    | some ts => some (String.intercalate ", " ts)
  { source := "mongo", title := item.title, tags := tags_value }

structure StoreEntry where
  doc : String
  meta : ChromaMeta
  deriving DecidableEq

/-- The Chroma collection, as a map from document id to its stored entry. -/
abbrev VectorStore := List (String × StoreEntry)

/-- One keyed upsert: overwrite the entry with the same id, else append. -/
def upsertOne (store : VectorStore) (id : String) (e : StoreEntry) : VectorStore :=
  if store.any (fun p => p.1 == id) then
    store.map (fun p => if p.1 == id then (id, e) else p)
  else store ++ [(id, e)]

/-- `upsert_documents` (`vector_store.py` lines 57-70): positional upsert of
the three parallel lists into the collection. -/
def upsert_documents (ids docs : List String) (metas : List ChromaMeta)
    (store : VectorStore) : VectorStore :=
  match ids, docs, metas with
  | i :: is, d :: ds, m :: ms =>
    upsert_documents is ds ms (upsertOne store i { doc := d, meta := m })
  | _, _, _ => store

/-- The per-item loop of `ingest_batch` (lines 303-311): validates each item
and accumulates the `ids`, `docs` and `metas` lists; the first oversized
item raises and aborts the whole loop before any store access. -/
def buildBatch (maxDocChars : Nat) :
    List IngestItem → Except HttpError (List String × List String × List ChromaMeta)
  | [] => Except.ok ([], [], [])
  | item :: rest =>
    match validate_payload_size maxDocChars item.title item.body with
    | Except.error e => Except.error e
    | Except.ok _ =>
      match buildBatch maxDocChars rest with
      | Except.error e => Except.error e
      | Except.ok (ids, docs, metas) =>
        Except.ok (item.mongo_id :: ids, build_text_from_payload item :: docs,
          buildMeta item :: metas)

/-- `ingest_batch` (lines 294-314).  Returns the vector store after the
request together with the HTTP outcome: the skip response for an empty
`items` list, the 413 error when some item fails size validation (the store
is untouched: the loop only builds local lists and the single store
operation `upsert_documents` sits after it), and otherwise the ingested
response counting the accumulated ids. -/
def ingest_batch (maxDocChars : Nat) (p : BatchIngestPayload)
    (store : VectorStore) : VectorStore × Except HttpError (String × Nat) :=
  if p.items.isEmpty then (store, Except.ok ("skipped", 0))
  else
    match buildBatch maxDocChars p.items with
    | Except.error e => (store, Except.error e)
    | Except.ok (ids, docs, metas) =>
      (upsert_documents ids docs metas store, Except.ok ("ingested", ids.length))

/-! ## Concrete scenarios used by counterexamples and witnesses -/

/-- A document carrying only an id, all optional fields absent. -/
def natDoc (n : Nat) : MongoDoc := { id := n }

/-- A run of six documents, ids 1-6; static across cycles. -/
def sixDocs : List MongoDoc :=
  [natDoc 1, natDoc 2, natDoc 3, natDoc 4, natDoc 5, natDoc 6]

/-- Attempt oracle where every POST for sub-batch index 1 fails and every
other sub-batch succeeds immediately, in every cycle. -/
def failSecondBatch : Nat → Nat → Nat → Bool := fun _ j _ => !(j == 1)

/-- A run of four documents, ids 1-4. -/
def fourDocs : List MongoDoc := [natDoc 1, natDoc 2, natDoc 3, natDoc 4]

/-- Attempt oracle where every POST for sub-batch index 0 fails and every
other sub-batch succeeds immediately, in every cycle. -/
def failFirstBatch : Nat → Nat → Nat → Bool := fun _ j _ => j == 1

/-- An item whose title and body together exceed a 5-character limit. -/
def oversizedItem : IngestItem :=
  { mongo_id := "big", title := "toolong", body := "x" }

/-- A small item passing any size limit of at least 2. -/
def smallItem : IngestItem :=
  { mongo_id := "ok1", title := "t", body := "b" }

/-! ## Support lemmas -/

theorem splitBatchesAux_flatten (B fuel : Nat) (l : List α)
    (h : l.length ≤ fuel) : (splitBatchesAux B fuel l).flatten = l := by
  induction fuel generalizing l with
  | zero =>
    cases l with
    | nil => rfl
    | cons x xs => simp only [List.length_cons] at h; omega
  | succ fuel ih =>
    cases l with
    | nil => rfl
    | cons x xs =>
      simp only [splitBatchesAux, List.flatten_cons, List.cons_append]
      rw [ih _ (by simp only [List.length_drop, List.length_cons] at h ⊢; omega)]
      simp [List.take_append_drop]

theorem splitBatches_flatten (B : Nat) (l : List α) : (splitBatches B l).flatten = l :=
  splitBatchesAux_flatten B l.length l (le_refl _)

theorem splitBatchesAux_ne_nil (B fuel : Nat) (l : List α) :
    ∀ b ∈ splitBatchesAux B fuel l, b ≠ [] := by
  induction fuel generalizing l with
  | zero => cases l <;> simp [splitBatchesAux]
  | succ fuel ih =>
    cases l with
    | nil => simp [splitBatchesAux]
    | cons x xs =>
      intro b hb
      simp only [splitBatchesAux, List.mem_cons] at hb
      rcases hb with hb | hb
      · subst hb; simp
      · exact ih _ b hb

theorem splitBatches_ne_nil (B : Nat) (l : List α) :
    ∀ b ∈ splitBatches B l, b ≠ [] :=
  splitBatchesAux_ne_nil B l.length l

theorem splitBatchesAux_size_le (B : Nat) (hB : 1 ≤ B) (fuel : Nat) (l : List α) :
    ∀ b ∈ splitBatchesAux B fuel l, b.length ≤ B := by
  induction fuel generalizing l with
  | zero => cases l <;> simp [splitBatchesAux]
  | succ fuel ih =>
    cases l with
    | nil => simp [splitBatchesAux]
    | cons x xs =>
      intro b hb
      simp only [splitBatchesAux, List.mem_cons] at hb
      rcases hb with hb | hb
      · subst hb
        simp only [List.length_cons, List.length_take]
        omega
      · exact ih _ b hb

theorem splitBatches_size_le (B : Nat) (hB : 1 ≤ B) (l : List α) :
    ∀ b ∈ splitBatches B l, b.length ≤ B :=
  splitBatchesAux_size_le B hB l.length l

theorem splitBatchesAux_length (B : Nat) (hB : 1 ≤ B) (fuel : Nat) (l : List α)
    (h : l.length ≤ fuel) :
    (splitBatchesAux B fuel l).length = (l.length + B - 1) / B := by
  induction fuel generalizing l with
  | zero =>
    cases l with
    | nil =>
      simp only [splitBatchesAux, List.length_nil]
      rw [Nat.div_eq_of_lt (by omega)]
    | cons x xs => simp only [List.length_cons] at h; omega
  | succ fuel ih =>
    cases l with
    | nil =>
      simp only [splitBatchesAux, List.length_nil]
      rw [Nat.div_eq_of_lt (by omega)]
    | cons x xs =>
      simp only [splitBatchesAux, List.length_cons]
      rw [ih _ (by simp only [List.length_drop, List.length_cons] at h ⊢; omega)]
      simp only [List.length_drop]
      rcases le_or_lt (B - 1) xs.length with hc | hc
      · have h1 : xs.length - (B - 1) + B - 1 = xs.length := by omega
        have h3 : xs.length + 1 + B - 1 = xs.length + B := by omega
        rw [h1, h3, Nat.add_div_right _ (by omega)]
      · have h1 : xs.length - (B - 1) = 0 := by omega
        have h3 : xs.length + 1 + B - 1 = xs.length + B := by omega
        rw [h1, h3, Nat.add_div_right _ (by omega),
          Nat.div_eq_of_lt (by omega), Nat.div_eq_of_lt (by omega)]

theorem splitBatches_length (B : Nat) (hB : 1 ≤ B) (l : List α) :
    (splitBatches B l).length = (l.length + B - 1) / B :=
  splitBatchesAux_length B hB l.length l (le_refl _)

theorem retryLoop_false (attemptOk : Nat → Bool) (a n : Nat)
    (h : ∀ k, attemptOk k = false) : retryLoop attemptOk a n = false := by
  induction n generalizing a with
  | zero => rfl
  | succ n ih => simp [retryLoop, h a, ih]

theorem lastId_mem (b : List MongoDoc) (hb : b ≠ []) :
    ∃ d ∈ b, d.id = lastId b := by
  have h := List.getLast?_eq_getLast b hb
  refine ⟨b.getLast hb, List.getLast_mem hb, ?_⟩
  simp [lastId, h]

theorem dispatchBatches_inv (c0 : Option Nat) (ok : Nat → Bool) (j : Nat)
    (batches : List (List MongoDoc)) (st : WorkerState)
    (hne : ∀ b ∈ batches, b ≠ [])
    (hsort : idSorted batches.flatten)
    (hgt : ∀ d ∈ batches.flatten, matchesQuery st.lastSeenId d = true)
    (hinv : ChkInv c0 st) :
    ChkInv c0 (dispatchBatches ok j batches st) := by
  induction batches generalizing j st with
  | nil => exact hinv
  | cons b rest ih =>
    have hbne : b ≠ [] := hne b (List.mem_cons_self b rest)
    obtain ⟨d0, hd0mem, hd0id⟩ := lastId_mem b hbne
    rw [idSorted, List.flatten_cons, List.pairwise_append] at hsort
    obtain ⟨pb, pr, pcross⟩ := hsort
    obtain ⟨hchain, hmap, hlast⟩ := hinv
    rw [dispatchBatches]
    by_cases hok : ok j = true
    · rw [if_pos hok]
      apply ih (j + 1)
      · intro b' hb'; exact hne b' (List.mem_cons_of_mem b hb')
      · exact pr
      · intro d hd
        simp only [matchesQuery, decide_eq_true_eq]
        rw [← hd0id]
        exact pcross d0 hd0mem d hd
      · refine ⟨?_, ?_, ?_⟩
        · show List.Chain' (· < ·) (c0.toList ++ (st.saved ++ [lastId b]))
          rw [← List.append_assoc]
          apply List.Chain'.append hchain (List.chain'_singleton _)
          intro x hx y hy
          simp only [List.head?_cons, Option.mem_def, Option.some_inj] at hy
          subst hy
          rw [← hlast] at hx
          simp only [Option.mem_def] at hx
          have hq := hgt d0 (by rw [List.flatten_cons]; exact List.mem_append_left _ hd0mem)
          rw [hx] at hq
          simp only [matchesQuery, decide_eq_true_eq] at hq
          rw [← hd0id]; exact hq
        · show st.saved ++ [lastId b] = (st.succBatches ++ [b]).map lastId
          rw [List.map_append, hmap]; rfl
        · show some (lastId b) = (chkTrace c0 _).getLast?
          show some (lastId b) = (c0.toList ++ (st.saved ++ [lastId b])).getLast?
          rw [← List.append_assoc, List.getLast?_concat]
    · rw [if_neg hok]
      apply ih (j + 1)
      · intro b' hb'; exact hne b' (List.mem_cons_of_mem b hb')
      · exact pr
      · intro d hd
        exact hgt d (by rw [List.flatten_cons]; exact List.mem_append_right _ hd)
      · exact ⟨hchain, hmap, hlast⟩

theorem runCycle_inv (c0 : Option Nat) (B : Nat) (ok : Nat → Bool)
    (coll : List MongoDoc) (st : WorkerState)
    (hcoll : idSorted coll) (hinv : ChkInv c0 st) :
    ChkInv c0 (runCycle B ok coll st) := by
  apply dispatchBatches_inv
  · exact splitBatches_ne_nil _ _
  · rw [idSorted, splitBatches_flatten]
    exact List.Pairwise.filter _ hcoll
  · intro d hd
    rw [splitBatches_flatten] at hd
    exact (List.mem_filter.mp hd).2
  · exact hinv

theorem initState_inv (c0 : Option Nat) : ChkInv c0 (initState c0) := by
  refine ⟨?_, rfl, ?_⟩
  · cases c0 <;> simp [chkTrace, initState]
  · cases c0 <;> simp [chkTrace, initState]

theorem run_polling_worker_inv (B maxRetries : Nat)
    (attempts : Nat → Nat → Nat → Bool) (coll : Nat → List MongoDoc)
    (c0 : Option Nat) (hcoll : ∀ t, idSorted (coll t)) (t : Nat) :
    ChkInv c0 (run_polling_worker B maxRetries attempts coll c0 t) := by
  induction t with
  | zero => exact initState_inv c0
  | succ t ih => exact runCycle_inv c0 B _ (coll t) _ (hcoll t) ih

theorem buildBatch_ok_of_valid (maxDocChars : Nat) (items : List IngestItem)
    (hvalid : ∀ item ∈ items, item.title.length + item.body.length ≤ maxDocChars) :
    ∃ ids docs metas, buildBatch maxDocChars items = Except.ok (ids, docs, metas) ∧
      ids.length = items.length := by
  induction items with
  | nil => exact ⟨[], [], [], rfl, rfl⟩
  | cons item rest ih =>
    obtain ⟨ids, docs, metas, hok, hlen⟩ :=
      ih (fun i hi => hvalid i (List.mem_cons_of_mem item hi))
    have hsize := hvalid item (List.mem_cons_self item rest)
    have hval : validate_payload_size maxDocChars item.title item.body = Except.ok () := by
      rw [validate_payload_size]
      simp only [gt_iff_lt, ite_eq_right_iff]
      intro h; omega
    refine ⟨item.mongo_id :: ids, build_text_from_payload item :: docs,
      buildMeta item :: metas, ?_, by simp [hlen]⟩
    rw [buildBatch, hval, hok]

theorem buildBatch_error_of_oversized (maxDocChars : Nat) (items : List IngestItem)
    (item : IngestItem) (hmem : item ∈ items)
    (hbig : maxDocChars < item.title.length + item.body.length) :
    ∃ e, buildBatch maxDocChars items = Except.error e ∧ e.status_code = 413 := by
  induction items with
  | nil => simp at hmem
  | cons a rest ih =>
    by_cases ha : a.title.length + a.body.length > maxDocChars
    · rw [buildBatch, validate_payload_size]
      simp only [gt_iff_lt] at ha
      simp only [gt_iff_lt, if_pos ha]
      exact ⟨_, rfl, rfl⟩
    · rcases List.mem_cons.mp hmem with hia | hia
      · subst hia; omega
      · obtain ⟨e, he, hcode⟩ := ih hia
        refine ⟨e, ?_, hcode⟩
        have hval : validate_payload_size maxDocChars a.title a.body = Except.ok () := by
          rw [validate_payload_size]
          simp only [gt_iff_lt, ite_eq_right_iff]
          intro h; omega
        rw [buildBatch, hval, he]

/-! ## Claims -/

/-- Claim C1: the checkpoint reflects only ids of confirmed sub-batches and
never advances past an unconfirmed or failed batch, so every event is
eventually re-fetched and dispatched.  The code refutes this: with six
documents fetched in one run, batch size 2 and one delivery attempt,
sub-batch 1 (documents 3 and 4) fails permanently while sub-batches 0 and 2
succeed, yet the cycle saves checkpoints 2 and then 6 — advancing past the
failed batch — and every later cycle fetches nothing, so documents 3 and 4
are never again included in any dispatched batch. -/
theorem claim_C1_checkpoint_advances_past_failed_batch :
    (run_polling_worker 2 1 failSecondBatch (fun _ => sixDocs) none 1).saved = [2, 6] ∧
    (run_polling_worker 2 1 failSecondBatch (fun _ => sixDocs) none 1).lastSeenId = some 6 ∧
    (run_polling_worker 2 1 failSecondBatch (fun _ => sixDocs) none 1).failedBatches
      = [[natDoc 3, natDoc 4]] ∧
    (run_polling_worker 2 1 failSecondBatch (fun _ => sixDocs) none 1).succBatches
      = [[natDoc 1, natDoc 2], [natDoc 5, natDoc 6]] ∧
    ∀ t, run_polling_worker 2 1 failSecondBatch (fun _ => sixDocs) none (t + 1)
      = run_polling_worker 2 1 failSecondBatch (fun _ => sixDocs) none 1 := by
  refine ⟨by decide, by decide, by decide, by decide, ?_⟩
  intro t
  induction t with
  | zero => rfl
  | succ t ih =>
    show runCycle 2 (fun j => _post_batch_with_retry 1 (failSecondBatch (t + 1) j)) sixDocs
      (run_polling_worker 2 1 failSecondBatch (fun _ => sixDocs) none (t + 1)) = _
    rw [ih]
    rfl

/-- Claim C2: when all attempts for a sub-batch are exhausted it is marked
failed, not checkpointed, logged and counted — all of which the code does —
and processing proceeds to the next polling tick rather than the next
sub-batch of the same run, which the code refutes: with four documents,
batch size 2 and three attempts all failing for sub-batch 0,
`_post_batch_with_retry` returns false, the failed batch is recorded and
counted and gets no checkpoint, but sub-batch 1 is still dispatched (and
checkpointed) within the same cycle. -/
theorem claim_C2_failed_batch_same_run_continues :
    _post_batch_with_retry 3 (failFirstBatch 0 0) = false ∧
    (run_polling_worker 2 3 failFirstBatch (fun _ => fourDocs) none 1).failedBatches
      = [[natDoc 1, natDoc 2]] ∧
    (run_polling_worker 2 3 failFirstBatch (fun _ => fourDocs) none 1).errorCount = 2 ∧
    (run_polling_worker 2 3 failFirstBatch (fun _ => fourDocs) none 1).saved = [4] ∧
    (run_polling_worker 2 3 failFirstBatch (fun _ => fourDocs) none 1).succBatches
      = [[natDoc 3, natDoc 4]] := by
  decide

/-- Claim C3: `save(id)` overwrites the record with the canonical string of
`id` — which the code does — and the write is atomic with respect to crash
(temp-then-rename or equivalent), which the code refutes: `_save_checkpoint`
writes in place, so the crash states of saving id 1 over a previous record
include the half-written prefix "000", a state an atomic save can never
leave on disk and which does not parse as an ObjectId. -/
theorem claim_C3_save_checkpoint_not_crash_atomic :
    _save_checkpoint_contents 1 = oidString 1 ∧
    "000" ∈ writeTextCrashStates (_save_checkpoint_contents 1) ∧
    "000" ∉ atomicSaveCrashStates (oidString 0) (_save_checkpoint_contents 1) ∧
    isValidOidString "000" = false := by
  decide

/-- Claim C4: in any execution of the polling worker the checkpoint never
decreases — the history of checkpoint values, from the loaded value through
every `_save_checkpoint` write, is strictly increasing — and after every
write the checkpoint equals the id of the last event of the most recent
fully successful sub-batch (the saved values are exactly `lastId` of the
confirmed sub-batches, in order, and the in-memory checkpoint is the most
recent one). -/
theorem claim_C4_checkpoint_monotone (B maxRetries : Nat)
    (attempts : Nat → Nat → Nat → Bool) (coll : Nat → List MongoDoc)
    (c0 : Option Nat) (hcoll : ∀ t, idSorted (coll t)) (t : Nat) :
    List.Chain' (· < ·) (chkTrace c0 (run_polling_worker B maxRetries attempts coll c0 t)) ∧
    (run_polling_worker B maxRetries attempts coll c0 t).saved
      = ((run_polling_worker B maxRetries attempts coll c0 t).succBatches).map lastId ∧
    (run_polling_worker B maxRetries attempts coll c0 t).lastSeenId
      = (chkTrace c0 (run_polling_worker B maxRetries attempts coll c0 t)).getLast? :=
  run_polling_worker_inv B maxRetries attempts coll c0 hcoll t

/-- Witness for C4 at a concrete execution: six sorted documents, batch
size 2, sub-batch 1 failing, one cycle. -/
theorem claim_C4_checkpoint_monotone_witness :
    List.Chain' (· < ·)
      (chkTrace none (run_polling_worker 2 1 failSecondBatch (fun _ => sixDocs) none 1)) ∧
    (run_polling_worker 2 1 failSecondBatch (fun _ => sixDocs) none 1).saved
      = ((run_polling_worker 2 1 failSecondBatch (fun _ => sixDocs) none 1).succBatches).map lastId ∧
    (run_polling_worker 2 1 failSecondBatch (fun _ => sixDocs) none 1).lastSeenId
      = (chkTrace none (run_polling_worker 2 1 failSecondBatch (fun _ => sixDocs) none 1)).getLast? :=
  claim_C4_checkpoint_monotone 2 1 failSecondBatch (fun _ => sixDocs) none
    (fun _ => by show List.Pairwise (fun a b => a.id < b.id) sixDocs; decide) 1

/-- Claim C5: for every retry attempt `n ≥ 1` (1-based) the delay equals
`base * 2 ^ (n - 1) * (1 + jitter)` and, for `jitter ∈ [0, 1)` and
`base > 0`, lies in `[base * 2 ^ (n - 1), base * 2 ^ n)`. -/
theorem claim_C5_backoff_bounds (base jitter : ℚ) (n : Nat)
    (hn : 1 ≤ n) (hb : 0 < base) (hj0 : 0 ≤ jitter) (hj1 : jitter < 1) :
    backoffDelay base (n - 1) jitter = base * 2 ^ (n - 1) * (1 + jitter) ∧
    base * 2 ^ (n - 1) ≤ backoffDelay base (n - 1) jitter ∧
    backoffDelay base (n - 1) jitter < base * 2 ^ n := by
  have hbp : (0 : ℚ) < base * 2 ^ (n - 1) := by positivity
  refine ⟨rfl, ?_, ?_⟩
  · rw [backoffDelay]
    nlinarith
  · rw [backoffDelay]
    have h2 : (2 : ℚ) ^ n = 2 ^ (n - 1) * 2 := by
      rw [← pow_succ]
      congr 1
      omega
    rw [h2]
    nlinarith

/-- Witness for C5 at `base = 1`, `jitter = 1/2`, `n = 1`. -/
theorem claim_C5_backoff_bounds_witness :
    backoffDelay 1 (1 - 1) (1 / 2) = 1 * 2 ^ (1 - 1) * (1 + 1 / 2) ∧
    1 * 2 ^ (1 - 1) ≤ backoffDelay 1 (1 - 1) (1 / 2) ∧
    backoffDelay 1 (1 - 1) (1 / 2) < 1 * 2 ^ 1 :=
  claim_C5_backoff_bounds 1 (1 / 2) 1 (le_refl 1) (by norm_num) (by norm_num) (by norm_num)

/-- Claim C6: a fetched run of `M ≥ 1` events with batch size `B ≥ 1` splits
into exactly `⌈M / B⌉` contiguous sub-batches of size at most `B` whose
concatenation in dispatch order is the original run. -/
theorem claim_C6_batch_splitting (B : Nat) (l : List α) (hB : 1 ≤ B)
    (_hM : 1 ≤ l.length) :
    (splitBatches B l).length = (l.length + B - 1) / B ∧
    (∀ b ∈ splitBatches B l, b.length ≤ B) ∧
    (splitBatches B l).flatten = l :=
  ⟨splitBatches_length B hB l, splitBatches_size_le B hB l, splitBatches_flatten B l⟩

/-- Witness for C6 at `B = 2` over a three-element run. -/
theorem claim_C6_batch_splitting_witness :
    (splitBatches 2 ([10, 20, 30] : List Nat)).length
      = (([10, 20, 30] : List Nat).length + 2 - 1) / 2 ∧
    (∀ b ∈ splitBatches 2 ([10, 20, 30] : List Nat), b.length ≤ 2) ∧
    (splitBatches 2 ([10, 20, 30] : List Nat)).flatten = [10, 20, 30] :=
  claim_C6_batch_splitting 2 [10, 20, 30] (by decide) (by decide)

/-- Claim C7: the payload builder is a pure function from a document change
event to the ingestion payload whose `mongo_id` is the string form of the
document id, whose `title` and `body` default to `""` when the field is
missing (and are the field's value otherwise), and whose `tags` defaults to
`[]` when missing. -/
theorem claim_C7_payload_builder (doc : MongoDoc) :
    (_to_payload doc).mongo_id = oidString doc.id ∧
    (doc.title = none → (_to_payload doc).title = "") ∧
    (∀ s, doc.title = some s → (_to_payload doc).title = s) ∧
    (doc.body = none → (_to_payload doc).body = "") ∧
    (∀ s, doc.body = some s → (_to_payload doc).body = s) ∧
    (doc.tags = none → (_to_payload doc).tags = []) ∧
    (∀ ts, doc.tags = some ts → (_to_payload doc).tags = ts) := by
  refine ⟨rfl, ?_, ?_, ?_, ?_, ?_, ?_⟩
  · intro h; simp [_to_payload, h]
  · intro s h; simp [_to_payload, h]
  · intro h; simp [_to_payload, h]
  · intro s h; simp [_to_payload, h]
  · intro h; simp [_to_payload, h]
  · intro ts h; simp [_to_payload, h]

/-- Witness for C7 at a document with all optional fields missing. -/
theorem claim_C7_payload_builder_witness :
    (_to_payload (natDoc 5)).mongo_id = oidString 5 ∧
    (_to_payload (natDoc 5)).title = "" ∧
    (_to_payload (natDoc 5)).body = "" ∧
    (_to_payload (natDoc 5)).tags = [] :=
  ⟨(claim_C7_payload_builder (natDoc 5)).1,
    (claim_C7_payload_builder (natDoc 5)).2.1 rfl,
    (claim_C7_payload_builder (natDoc 5)).2.2.2.1 rfl,
    (claim_C7_payload_builder (natDoc 5)).2.2.2.2.2.1 rfl⟩

/-- Claim C8: `load()` returns "absent" whenever the backing file does not
exist or its contents do not parse as a valid ObjectId, and it never raises
in those cases (the model is a total function: the source's `try/except`
converts every parse failure into `None`). -/
theorem claim_C8_load_checkpoint_absent :
    _load_checkpoint none = none ∧
    ∀ s, isValidOidString (pyStrip s) = false → _load_checkpoint (some s) = none := by
  refine ⟨rfl, ?_⟩
  intro s hs
  simp only [_load_checkpoint]
  by_cases h : pyStrip s = ""
  · rw [if_pos h]
  · rw [if_neg h]
    simp [parseObjectId, hs]

/-- Witness for C8 on a corrupt checkpoint file. -/
theorem claim_C8_load_checkpoint_absent_witness :
    _load_checkpoint (some " not-a-valid-object-id ") = none :=
  claim_C8_load_checkpoint_absent.2 " not-a-valid-object-id " (by decide)

/-- Claim C9 as stated is false at the empty items list, which passes
validation but is answered with status "skipped", not "ingested". -/
theorem claim_C9_counterexample :
    (ingest_batch 12000 { items := [] } []).2 = Except.ok ("skipped", 0) ∧
    (ingest_batch 12000 { items := [] } []).2 ≠ Except.ok ("ingested", 0) := by
  refine ⟨rfl, ?_⟩
  intro h
  exact absurd (congrArg Prod.fst (Except.ok.inj h)) (by decide)

/-- Claim C9 amended: a validated request with a nonempty items list is
answered `("ingested", count)` with `count` the number of items; the empty
items list is instead answered `("skipped", 0)`. -/
theorem claim_C9_amended (maxDocChars : Nat) (p : BatchIngestPayload)
    (store : VectorStore)
    (hvalid : ∀ item ∈ p.items, item.title.length + item.body.length ≤ maxDocChars) :
    (p.items = [] → (ingest_batch maxDocChars p store).2 = Except.ok ("skipped", 0)) ∧
    (p.items ≠ [] →
      (ingest_batch maxDocChars p store).2 = Except.ok ("ingested", p.items.length)) := by
  constructor
  · intro h
    rw [ingest_batch, if_pos (by rw [h]; rfl)]
  · intro hne
    obtain ⟨ids, docs, metas, hok, hlen⟩ := buildBatch_ok_of_valid maxDocChars p.items hvalid
    have hie : ¬(p.items.isEmpty = true) := by
      cases hp : p.items with
      | nil => exact absurd hp hne
      | cons a l => simp [hp]
    rw [ingest_batch, if_neg hie, hok]
    show Except.ok ("ingested", ids.length) = Except.ok ("ingested", p.items.length)
    rw [hlen]

/-- Witness for C9 (amended) on a one-item request. -/
theorem claim_C9_amended_witness :
    (ingest_batch 12000 { items := [smallItem] } []).2 = Except.ok ("ingested", 1) :=
  (claim_C9_amended 12000 { items := [smallItem] } [] (by decide)).2 (by decide)

/-- Claim C10: if any item of a batch request exceeds the configured size
limit, the whole request is rejected with HTTP 413 and the vector store is
unchanged — no item of the request, not even one that individually passes
validation, is upserted. -/
theorem claim_C10_batch_validation_atomic (maxDocChars : Nat)
    (p : BatchIngestPayload) (store : VectorStore) (item : IngestItem)
    (hmem : item ∈ p.items)
    (hbig : maxDocChars < item.title.length + item.body.length) :
    (ingest_batch maxDocChars p store).1 = store ∧
    ∃ e, (ingest_batch maxDocChars p store).2 = Except.error e ∧ e.status_code = 413 := by
  obtain ⟨e, he, hcode⟩ := buildBatch_error_of_oversized maxDocChars p.items item hmem hbig
  have hie : ¬(p.items.isEmpty = true) := by
    cases hp : p.items with
    | nil => rw [hp] at hmem; simp at hmem
    | cons a l => simp [hp]
  rw [ingest_batch, if_neg hie, he]
  exact ⟨rfl, e, rfl, hcode⟩

/-- Witness for C10: a request holding a small valid item and an oversized
item leaves the empty store empty and is rejected with 413. -/
theorem claim_C10_batch_validation_atomic_witness :
    (ingest_batch 5 { items := [smallItem, oversizedItem] } []).1 = [] ∧
    ∃ e, (ingest_batch 5 { items := [smallItem, oversizedItem] } []).2 = Except.error e ∧
      e.status_code = 413 :=
  claim_C10_batch_validation_atomic 5 { items := [smallItem, oversizedItem] } []
    oversizedItem (by decide) (by decide)

end MongoChroma
